import Mathlib

/-!
Verification of the audit-log decoding module (`discord/audit_logs.py`).

The Python module is shallowly embedded: every class becomes a structure,
every method a function; Python attribute dictionaries become association
lists from attribute name to a universal `Value` type; Python exceptions
become `Except String`; the lazily-memoized `cached_property` fields become
explicit `Option`-typed cache slots threaded through the accessors.
Collaborator modules that are not part of the source under verification
(enums, guild/state cache surfaces, `Object`, `Asset`, `Invite`,
`AllChannels`) are modelled from the specification, as noted on each
definition.
-/

set_option maxHeartbeats 1000000

namespace Audit

/-- Wire-level role stub appearing in the list value of a `$add` / `$remove`
change record: `{'id': ..., 'name': ...}`. -/
structure RolePayload where
  id : Int
  name : String
  deriving DecidableEq, Repr

/-- Wire-level `ApplicationCommandPermissions` payload: a dict with a
`type` discriminator and a boolean `permission`. -/
structure AppCommandPermPayload where
  type : Int
  permission : Bool
  deriving DecidableEq, Repr

/-- Wire-level permission-overwrite payload consumed by
`_transform_overwrites`: `{'allow': ..., 'deny': ..., 'type': ..., 'id': ...}`. -/
structure OverwritePayload where
  allow : Int
  deny : Int
  type : String
  id : Int
  deriving DecidableEq, Repr

/-- Modelled from the spec: a guild role held in the guild's role cache. -/
structure Role where
  id : Int
  name : String
  deriving DecidableEq, Repr

/-- Modelled from the spec: a guild channel held in the guild's channel cache. -/
structure Channel where
  id : Int
  deriving DecidableEq, Repr

/-- Modelled from the spec: a thread held in the guild's thread cache. -/
structure Thread where
  id : Int
  deriving DecidableEq, Repr

/-- Modelled from the spec: a guild member held in the guild's member cache. -/
structure Member where
  id : Int
  deriving DecidableEq, Repr

/-- Modelled from the spec: a user object from the caller-supplied user table. -/
structure User where
  id : Int
  deriving DecidableEq, Repr

/-- Modelled from the spec: a stage instance held in the guild cache. -/
structure StageInstance where
  id : Int
  deriving DecidableEq, Repr

/-- Modelled from the spec: a scheduled event held in the guild cache. -/
structure ScheduledEvent where
  id : Int
  deriving DecidableEq, Repr

/-- Modelled from the spec: an emoji held in the global state cache. -/
structure Emoji where
  id : Int
  deriving DecidableEq, Repr

/-- Modelled from the spec: a sticker held in the global state cache. -/
structure Sticker where
  id : Int
  deriving DecidableEq, Repr

/-- Modelled from the spec: a partial integration from the caller-supplied
integration table; carries an optional owning application id. -/
structure Integration where
  id : Int
  application_id : Option Int
  deriving DecidableEq, Repr

/-- Modelled from the spec: an application command from the caller-supplied
command table. -/
structure AppCommand where
  id : Int
  deriving DecidableEq, Repr

/-- Modelled from the spec: the guild lookup surface
(`get_role`, `get_channel`, `get_channel_or_thread`, `get_member`,
`get_stage_instance`, `get_scheduled_event`, `get_thread`, own `id`). -/
structure Guild where
  id : Int
  roles : List Role
  channels : List Channel
  threads : List Thread
  members : List Member
  stage_instances : List StageInstance
  scheduled_events : List ScheduledEvent
  deriving DecidableEq, Repr

def Guild.get_role (g : Guild) (i : Int) : Option Role :=
  g.roles.find? (fun r => r.id == i)

def Guild.get_channel (g : Guild) (i : Int) : Option Channel :=
  g.channels.find? (fun c => c.id == i)

def Guild.get_thread (g : Guild) (i : Int) : Option Thread :=
  g.threads.find? (fun c => c.id == i)

/-- Modelled from the spec: `get_channel_or_thread` returns the cached
channel, else the cached thread, else nothing. -/
def Guild.get_channel_or_thread (g : Guild) (i : Int) : Option (Channel ⊕ Thread) :=
  match g.get_channel i with
  | some c => some (Sum.inl c)
  | none =>
    match g.get_thread i with
    | some th => some (Sum.inr th)
    | none => none

def Guild.get_member (g : Guild) (i : Int) : Option Member :=
  g.members.find? (fun m => m.id == i)

def Guild.get_stage_instance (g : Guild) (i : Int) : Option StageInstance :=
  g.stage_instances.find? (fun s => s.id == i)

def Guild.get_scheduled_event (g : Guild) (i : Int) : Option ScheduledEvent :=
  g.scheduled_events.find? (fun s => s.id == i)

/-- Modelled from the spec: the global/service lookup surface
(`get_emoji`, `get_sticker`, and the other guilds). -/
structure ConnectionState where
  emojis : List Emoji
  stickers : List Sticker
  guilds : List Guild
  deriving DecidableEq, Repr

def ConnectionState.get_emoji (s : ConnectionState) (i : Int) : Option Emoji :=
  s.emojis.find? (fun e => e.id == i)

def ConnectionState.get_sticker (s : ConnectionState) (i : Int) : Option Sticker :=
  s.stickers.find? (fun e => e.id == i)

def ConnectionState.get_guild (s : ConnectionState) (i : Int) : Option Guild :=
  s.guilds.find? (fun g => g.id == i)

/-- Integer-keyed dictionary lookup (`dict.get`). -/
def dictGet {α : Type} (d : List (Int × α)) (k : Int) : Option α :=
  (d.find? (fun p => p.1 == k)).map (fun p => p.2)

/-- The read-only lookup surface an entry consults: the owning guild, the
global state, and the three caller-supplied id-keyed tables
(`users`, `integrations`, `app_commands`).  Mutation of the caller's tables
between accesses is modelled by passing a different `Tables` value to a
later accessor call. -/
structure Tables where
  guild : Guild
  state : ConnectionState
  users : List (Int × User)
  integrations : List (Int × Integration)
  app_commands : List (Int × AppCommand)
  deriving DecidableEq, Repr

/-- Enum types appearing in the transformer registry (enum-decode service). -/
inductive EnumTy where
  | VerificationLevel | ContentFilter | NotificationLevel | VideoQualityMode
  | PrivacyLevel | StickerFormatType | ChannelType | StickerType
  | ExpireBehaviour | MFALevel | EventStatus | EntityType | Locale
  deriving DecidableEq, Repr

/-- Flag types appearing in the transformer registry (flags-decode service). -/
inductive FlagTy where
  | Permissions | SystemChannelFlags
  deriving DecidableEq, Repr

/-- A decoded role reference inside a `roles` diff attribute: either a
cached `Role` or an `Object` placeholder annotated with the salvaged name. -/
inductive RoleOrObj where
  | role (r : Role)
  | obj (id : Int) (name : Option String)
  deriving DecidableEq, Repr

/-- The target of one decoded permission overwrite. -/
inductive OvTarget where
  | role (r : Role)
  | member (m : Member)
  | user (u : User)
  | obj (id : Int)
  deriving DecidableEq, Repr

/-- The target of one decoded application-command permission record. -/
inductive AcpTarget where
  | allChannels (guildId : Int)
  | role (r : Role)
  | member (m : Member)
  | user (u : User)
  | channel (c : Channel)
  | obj (id : Int)
  deriving DecidableEq, Repr

/-- The universal value type: raw wire values (`vnull` … `vperm`) and
decoded domain values stored in the diff containers. -/
inductive Value where
  | vnull
  | vint (n : Int)
  | vstr (s : String)
  | vbool (b : Bool)
  | vroles (l : List RolePayload)
  | vov (l : List OverwritePayload)
  | vperm (p : AppCommandPermPayload)
  | vcolour (n : Int)
  | venum (ty : EnumTy) (code : Int)
  | vflags (ty : FlagTy) (n : Int)
  | vtimestamp (s : String)
  | vmember (m : Member)
  | vuser (u : User)
  | vguild (g : Guild)
  | vchannel (c : Channel)
  | vobj (id : Int) (name : Option String)
  | vasset (path : String) (owner : Option Int) (hash : String)
  | vrolelist (l : List RoleOrObj)
  | vovlist (l : List (OvTarget × Int × Int))
  | vacplist (l : List (AcpTarget × Bool))
  deriving DecidableEq, Repr

/-- Insert-or-replace on an attribute association list (Python `setattr`
on an instance `__dict__`). -/
def setattrList : List (String × Value) → String → Value → List (String × Value)
  | [], k, v => [(k, v)]
  | (k', v') :: rest, k, v =>
    if k' = k then (k, v) :: rest else (k', v') :: setattrList rest k v

/-- Attribute lookup on an attribute association list. -/
def lookupAttr : List (String × Value) → String → Option Value
  | [], _ => none
  | (k', v) :: rest, k => if k' = k then some v else lookupAttr rest k

/-- `AuditLogDiff`: an open, dynamically-keyed record of decoded
attribute values (the Python instance `__dict__`). -/
structure AuditLogDiff where
  attrs : List (String × Value)
  deriving DecidableEq, Repr

def AuditLogDiff.setattr (d : AuditLogDiff) (k : String) (v : Value) : AuditLogDiff :=
  ⟨setattrList d.attrs k v⟩

def AuditLogDiff.getattr? (d : AuditLogDiff) (k : String) : Option Value :=
  lookupAttr d.attrs k

def AuditLogDiff.hasattr (d : AuditLogDiff) (k : String) : Bool :=
  (d.getattr? k).isSome

theorem lookupAttr_setattrList_same (l : List (String × Value)) (k : String) (v : Value) :
    lookupAttr (setattrList l k v) k = some v := by
  induction l with
  | nil => simp [setattrList, lookupAttr]
  | cons hd tl ih =>
    by_cases h : hd.1 = k
    · simp [setattrList, h, lookupAttr]
    · simp [setattrList, h, lookupAttr, ih]

theorem lookupAttr_setattrList_other (l : List (String × Value)) (k k' : String) (v : Value)
    (h : k' ≠ k) : lookupAttr (setattrList l k v) k' = lookupAttr l k' := by
  induction l with
  | nil =>
    simp only [setattrList, lookupAttr]
    rw [if_neg (fun hh => h hh.symm)]
  | cons hd tl ih =>
    by_cases hh : hd.1 = k
    · subst hh
      simp only [setattrList, if_pos rfl, lookupAttr]
      rw [if_neg (fun hh2 => h hh2.symm), if_neg (fun hh2 => h hh2.symm)]
    · simp only [setattrList, if_neg hh, lookupAttr]
      by_cases h2 : hd.1 = k'
      · rw [if_pos h2, if_pos h2]
      · rw [if_neg h2, if_neg h2, ih]

theorem getattr_setattr_same (d : AuditLogDiff) (k : String) (v : Value) :
    (d.setattr k v).getattr? k = some v :=
  lookupAttr_setattrList_same d.attrs k v

theorem getattr_setattr_other (d : AuditLogDiff) (k k' : String) (v : Value)
    (h : k' ≠ k) : (d.setattr k v).getattr? k' = d.getattr? k' :=
  lookupAttr_setattrList_other d.attrs k k' v h

/-- Modelled from the spec: the closed tag on an action describing what
type of entity `target` resolves to (the `target_type` string of the
action metadata; `webhook` is the recognized kind with no resolver). -/
inductive TargetKind where
  | guild | channel | user | role | invite | webhook | emoji | message
  | stage_instance | sticker | thread | guild_scheduled_event
  | integration | integration_or_app_command
  deriving DecidableEq, Repr

/-- Modelled from the spec: the small closed set of action categories. -/
inductive Category where
  | create | update | delete
  deriving DecidableEq, Repr

/-- Modelled from the spec: the audit-log action enum
(`enums.AuditLogAction`); the enum-decode service never fails, so an
unknown code becomes the `unrecognized` variant. -/
inductive AuditLogAction where
  | guild_update
  | channel_create | channel_update | channel_delete
  | overwrite_create | overwrite_update | overwrite_delete
  | kick | member_prune | ban | unban | member_update | member_role_update
  | member_move | member_disconnect | bot_add
  | role_create | role_update | role_delete
  | invite_create | invite_update | invite_delete
  | webhook_create | webhook_update | webhook_delete
  | emoji_create | emoji_update | emoji_delete
  | message_delete | message_bulk_delete | message_pin | message_unpin
  | integration_create | integration_update | integration_delete
  | stage_instance_create | stage_instance_update | stage_instance_delete
  | sticker_create | sticker_update | sticker_delete
  | scheduled_event_create | scheduled_event_update | scheduled_event_delete
  | thread_create | thread_update | thread_delete
  | app_command_permission_update
  | unrecognized (code : Int)
  deriving DecidableEq, Repr

namespace AuditLogAction

/-- Modelled from the spec: the enum-decode service
`(enumType, rawCode) -> variant | unrecognized`, with the wire codes of
the audit-log action enum. -/
def fromCode : Int → AuditLogAction
  | 1 => .guild_update
  | 10 => .channel_create
  | 11 => .channel_update
  | 12 => .channel_delete
  | 13 => .overwrite_create
  | 14 => .overwrite_update
  | 15 => .overwrite_delete
  | 20 => .kick
  | 21 => .member_prune
  | 22 => .ban
  | 23 => .unban
  | 24 => .member_update
  | 25 => .member_role_update
  | 26 => .member_move
  | 27 => .member_disconnect
  | 28 => .bot_add
  | 30 => .role_create
  | 31 => .role_update
  | 32 => .role_delete
  | 40 => .invite_create
  | 41 => .invite_update
  | 42 => .invite_delete
  | 50 => .webhook_create
  | 51 => .webhook_update
  | 52 => .webhook_delete
  | 60 => .emoji_create
  | 61 => .emoji_update
  | 62 => .emoji_delete
  | 72 => .message_delete
  | 73 => .message_bulk_delete
  | 74 => .message_pin
  | 75 => .message_unpin
  | 80 => .integration_create
  | 81 => .integration_update
  | 82 => .integration_delete
  | 83 => .stage_instance_create
  | 84 => .stage_instance_update
  | 85 => .stage_instance_delete
  | 90 => .sticker_create
  | 91 => .sticker_update
  | 92 => .sticker_delete
  | 100 => .scheduled_event_create
  | 101 => .scheduled_event_update
  | 102 => .scheduled_event_delete
  | 110 => .thread_create
  | 111 => .thread_update
  | 112 => .thread_delete
  | 121 => .app_command_permission_update
  | c => .unrecognized c

/-- The enum member's name, as matched by the substring/suffix dispatch
in the entry resolver. -/
def name : AuditLogAction → String
  | .guild_update => "guild_update"
  | .channel_create => "channel_create"
  | .channel_update => "channel_update"
  | .channel_delete => "channel_delete"
  | .overwrite_create => "overwrite_create"
  | .overwrite_update => "overwrite_update"
  | .overwrite_delete => "overwrite_delete"
  | .kick => "kick"
  | .member_prune => "member_prune"
  | .ban => "ban"
  | .unban => "unban"
  | .member_update => "member_update"
  | .member_role_update => "member_role_update"
  | .member_move => "member_move"
  | .member_disconnect => "member_disconnect"
  | .bot_add => "bot_add"
  | .role_create => "role_create"
  | .role_update => "role_update"
  | .role_delete => "role_delete"
  | .invite_create => "invite_create"
  | .invite_update => "invite_update"
  | .invite_delete => "invite_delete"
  | .webhook_create => "webhook_create"
  | .webhook_update => "webhook_update"
  | .webhook_delete => "webhook_delete"
  | .emoji_create => "emoji_create"
  | .emoji_update => "emoji_update"
  | .emoji_delete => "emoji_delete"
  | .message_delete => "message_delete"
  | .message_bulk_delete => "message_bulk_delete"
  | .message_pin => "message_pin"
  | .message_unpin => "message_unpin"
  | .integration_create => "integration_create"
  | .integration_update => "integration_update"
  | .integration_delete => "integration_delete"
  | .stage_instance_create => "stage_instance_create"
  | .stage_instance_update => "stage_instance_update"
  | .stage_instance_delete => "stage_instance_delete"
  | .sticker_create => "sticker_create"
  | .sticker_update => "sticker_update"
  | .sticker_delete => "sticker_delete"
  | .scheduled_event_create => "scheduled_event_create"
  | .scheduled_event_update => "scheduled_event_update"
  | .scheduled_event_delete => "scheduled_event_delete"
  | .thread_create => "thread_create"
  | .thread_update => "thread_update"
  | .thread_delete => "thread_delete"
  | .app_command_permission_update => "app_command_permission_update"
  | .unrecognized c => "unknown_" ++ toString c

/-- Modelled from the spec: the action-metadata category lookup; absent
for actions without a category and for unrecognized actions. -/
def category : AuditLogAction → Option Category
  | .guild_update => some .update
  | .channel_create => some .create
  | .channel_update => some .update
  | .channel_delete => some .delete
  | .overwrite_create => some .create
  | .overwrite_update => some .update
  | .overwrite_delete => some .delete
  | .kick => none
  | .member_prune => some .delete
  | .ban => none
  | .unban => none
  | .member_update => some .update
  | .member_role_update => some .update
  | .member_move => none
  | .member_disconnect => none
  | .bot_add => none
  | .role_create => some .create
  | .role_update => some .update
  | .role_delete => some .delete
  | .invite_create => some .create
  | .invite_update => some .update
  | .invite_delete => some .delete
  | .webhook_create => some .create
  | .webhook_update => some .update
  | .webhook_delete => some .delete
  | .emoji_create => some .create
  | .emoji_update => some .update
  | .emoji_delete => some .delete
  | .message_delete => some .delete
  | .message_bulk_delete => some .delete
  | .message_pin => none
  | .message_unpin => none
  | .integration_create => some .create
  | .integration_update => some .update
  | .integration_delete => some .delete
  | .stage_instance_create => some .create
  | .stage_instance_update => some .update
  | .stage_instance_delete => some .delete
  | .sticker_create => some .create
  | .sticker_update => some .update
  | .sticker_delete => some .delete
  | .scheduled_event_create => some .create
  | .scheduled_event_update => some .update
  | .scheduled_event_delete => some .delete
  | .thread_create => some .create
  | .thread_update => some .update
  | .thread_delete => some .delete
  | .app_command_permission_update => some .update
  | .unrecognized _ => none

/-- Modelled from the spec: the action's declared target-kind; absent for
unrecognized actions. -/
def target_type : AuditLogAction → Option TargetKind
  | .guild_update => some .guild
  | .channel_create => some .channel
  | .channel_update => some .channel
  | .channel_delete => some .channel
  | .overwrite_create => some .channel
  | .overwrite_update => some .channel
  | .overwrite_delete => some .channel
  | .kick => some .user
  | .member_prune => some .user
  | .ban => some .user
  | .unban => some .user
  | .member_update => some .user
  | .member_role_update => some .user
  | .member_move => some .user
  | .member_disconnect => some .user
  | .bot_add => some .user
  | .role_create => some .role
  | .role_update => some .role
  | .role_delete => some .role
  | .invite_create => some .invite
  | .invite_update => some .invite
  | .invite_delete => some .invite
  | .webhook_create => some .webhook
  | .webhook_update => some .webhook
  | .webhook_delete => some .webhook
  | .emoji_create => some .emoji
  | .emoji_update => some .emoji
  | .emoji_delete => some .emoji
  | .message_delete => some .message
  | .message_bulk_delete => some .message
  | .message_pin => some .message
  | .message_unpin => some .message
  | .integration_create => some .integration
  | .integration_update => some .integration
  | .integration_delete => some .integration
  | .stage_instance_create => some .stage_instance
  | .stage_instance_update => some .stage_instance
  | .stage_instance_delete => some .stage_instance
  | .sticker_create => some .sticker
  | .sticker_update => some .sticker
  | .sticker_delete => some .sticker
  | .scheduled_event_create => some .guild_scheduled_event
  | .scheduled_event_update => some .guild_scheduled_event
  | .scheduled_event_delete => some .guild_scheduled_event
  | .thread_create => some .thread
  | .thread_update => some .thread
  | .thread_delete => some .thread
  | .app_command_permission_update => some .integration_or_app_command
  | .unrecognized _ => none

/-- Modelled from the spec: whether the decode produced a recognized enum
member (the `isinstance(self.action, enums.AuditLogAction)` guard in
`_from_data`, whose purpose is to skip `extra` decoding for unknown codes). -/
def isRecognized : AuditLogAction → Bool
  | .unrecognized _ => false
  | _ => true

end AuditLogAction

/-- A resolved actor reference: a guild member, or a user from the
caller-supplied table. -/
inductive MemberOrUser where
  | member (m : Member)
  | user (u : User)
  deriving DecidableEq, Repr

/-- `AuditLogEntry._get_member`: the guild-member lookup falling back to
the caller-supplied user table; `None` input short-circuits to `None`. -/
def getMemberLookup (t : Tables) (uid : Option Int) : Option MemberOrUser :=
  match uid with
  | none => none
  | some i =>
    match t.guild.get_member i with
    | some m => some (.member m)
    | none =>
      match dictGet t.users i with
      | some u => some (.user u)
      | none => none

/-- The already-decoded scalar entry fields a transformer may consult
(`entry.action`, `entry._target_id`; guild/state/tables passed alongside). -/
structure EntryCtx where
  action : AuditLogAction
  targetId : Option Int
  deriving DecidableEq, Repr

/-- Boolean list prefix test (kernel-reducible). -/
def listIsPrefixOf : List Char → List Char → Bool
  | [], _ => true
  | _ :: _, [] => false
  | a :: as, b :: bs => a == b && listIsPrefixOf as bs

/-- `str.startswith` on the action-name strings. -/
def strStartsWith (s p : String) : Bool := listIsPrefixOf p.toList s.toList

/-- `str.endswith` on the action-name strings. -/
def strEndsWith (s p : String) : Bool :=
  listIsPrefixOf p.toList.reverse s.toList.reverse

def parseNatDigitsAux : List Char → Nat → Option Nat
  | [], acc => some acc
  | c :: cs, acc =>
    if c.isDigit then parseNatDigitsAux cs (acc * 10 + (c.toNat - 48))
    else none

/-- Decimal integer parsing, as performed by Python `int` on a string. -/
def pyIntOfString (s : String) : Option Int :=
  match s.toList with
  | [] => none
  | '-' :: cs =>
    match cs with
    | [] => none
    | _ => (parseNatDigitsAux cs 0).map (fun n => -(n : Int))
  | cs => (parseNatDigitsAux cs 0).map (fun n => (n : Int))

/-- Python `int(x)` on a raw wire value (snowflake strings parse to
integers; booleans are integer subclasses); anything else raises. -/
def pyInt : Value → Except String Int
  | .vint n => .ok n
  | .vstr s =>
    match pyIntOfString s with
    | some n => .ok n
    | none => .error "ValueError: invalid literal for int"
  | .vbool b => .ok (if b then 1 else 0)
  | _ => .error "TypeError: int() argument"

instance {ε α : Type} [DecidableEq ε] [DecidableEq α] : DecidableEq (Except ε α) :=
  fun a b =>
    match a, b with
    | .ok x, .ok y =>
      match decEq x y with
      | isTrue h => isTrue (h ▸ rfl)
      | isFalse h => isFalse (fun hh => h (Except.ok.inj hh))
    | .error x, .error y =>
      match decEq x y with
      | isTrue h => isTrue (h ▸ rfl)
      | isFalse h => isFalse (fun hh => h (Except.error.inj hh))
    | .ok _, .error _ => isFalse (fun hh => Except.noConfusion hh)
    | .error _, .ok _ => isFalse (fun hh => Except.noConfusion hh)

/-- A value transform: a pure function of the owning entry's scalar
context, the lookup surface, and the raw scalar. -/
def Transformer : Type :=
  Tables → EntryCtx → Value → Except String Value

def transformTimestamp : Transformer := fun _ _ v =>
  match v with
  | .vnull => .ok .vnull
  | .vstr s => .ok (.vtimestamp s)
  | _ => .error "TypeError: parse_time"

def transformColor : Transformer := fun _ _ v =>
  match v with
  | .vint n => .ok (.vcolour n)
  | _ => .error "TypeError: Colour value is not an int"

def transformSnowflake : Transformer := fun _ _ v => do
  let n ← pyInt v
  .ok (.vint n)

def transformChannel : Transformer := fun t _ v =>
  match v with
  | .vnull => .ok .vnull
  | v => do
    let n ← pyInt v
    match t.guild.get_channel n with
    | some c => .ok (.vchannel c)
    | none => .ok (.vobj n none)

def transformMemberId : Transformer := fun t _ v =>
  match v with
  | .vnull => .ok .vnull
  | v => do
    let n ← pyInt v
    match getMemberLookup t (some n) with
    | some (.member m) => .ok (.vmember m)
    | some (.user u) => .ok (.vuser u)
    | none => .ok .vnull

def transformGuildId : Transformer := fun t _ v =>
  match v with
  | .vnull => .ok .vnull
  | v => do
    let n ← pyInt v
    match t.state.get_guild n with
    | some g => .ok (.vguild g)
    | none => .ok .vnull

/-- One permission-overwrite element: decode the allow/deny pair and
resolve the target by its `type` discriminator, falling back to an
opaque reference. -/
def decodeOverwrite (t : Tables) (elem : OverwritePayload) : OvTarget × Int × Int :=
  let target : Option OvTarget :=
    if elem.type = "0" then (t.guild.get_role elem.id).map .role
    else if elem.type = "1" then
      (getMemberLookup t (some elem.id)).map (fun mu =>
        match mu with
        | .member m => .member m
        | .user u => .user u)
    else none
  (target.getD (.obj elem.id), elem.allow, elem.deny)

def transformOverwrites : Transformer := fun t _ v =>
  match v with
  | .vov l => .ok (.vovlist (l.map (decodeOverwrite t)))
  | _ => .error "TypeError: overwrites payload"

def transformIcon : Transformer := fun t e v =>
  match v with
  | .vnull => .ok .vnull
  | .vstr s =>
    if e.action = .guild_update then .ok (.vasset "guild_icon" (some t.guild.id) s)
    else .ok (.vasset "role" e.targetId s)
  | _ => .error "TypeError: icon hash"

def transformAvatar : Transformer := fun _ e v =>
  match v with
  | .vnull => .ok .vnull
  | .vstr s => .ok (.vasset "avatar" e.targetId s)
  | _ => .error "TypeError: avatar hash"

def transformCoverImage : Transformer := fun _ e v =>
  match v with
  | .vnull => .ok .vnull
  | .vstr s => .ok (.vasset "scheduled_event_cover_image" e.targetId s)
  | _ => .error "TypeError: cover image hash"

def guildHashTransformer (path : String) : Transformer := fun t _ v =>
  match v with
  | .vnull => .ok .vnull
  | .vstr s => .ok (.vasset path (some t.guild.id) s)
  | _ => .error "TypeError: guild asset hash"

/-- Enum decode (`try_enum`): never fails on an unknown code — the code is
kept in the resulting variant.  Enum-valued change fields are integers on
the wire. -/
def enumTransformer (ty : EnumTy) : Transformer := fun _ _ v =>
  match v with
  | .vint n => .ok (.venum ty n)
  | _ => .error "TypeError: enum code is not an int"

def flagTransformer (ty : FlagTy) : Transformer := fun _ _ v => do
  let n ← pyInt v
  .ok (.vflags ty n)

def transformType : Transformer := fun _ e v =>
  match v with
  | .vint n =>
    if strStartsWith e.action.name "sticker_" then .ok (.venum .StickerType n)
    else .ok (.venum .ChannelType n)
  | _ => .error "TypeError: type code is not an int"

/-- `AuditLogChanges.TRANSFORMERS`: the static transform registry mapping
a raw field name to an optional renamed field and an optional transform. -/
def TRANSFORMERS (attr : String) : Option (Option String × Option Transformer) :=
  match attr with
  | "verification_level" => some (none, some (enumTransformer .VerificationLevel))
  | "explicit_content_filter" => some (none, some (enumTransformer .ContentFilter))
  | "allow" => some (none, some (flagTransformer .Permissions))
  | "deny" => some (none, some (flagTransformer .Permissions))
  | "permissions" => some (none, some (flagTransformer .Permissions))
  | "id" => some (none, some transformSnowflake)
  | "color" => some (some "colour", some transformColor)
  | "owner_id" => some (some "owner", some transformMemberId)
  | "inviter_id" => some (some "inviter", some transformMemberId)
  | "channel_id" => some (some "channel", some transformChannel)
  | "afk_channel_id" => some (some "afk_channel", some transformChannel)
  | "system_channel_id" => some (some "system_channel", some transformChannel)
  | "system_channel_flags" => some (none, some (flagTransformer .SystemChannelFlags))
  | "widget_channel_id" => some (some "widget_channel", some transformChannel)
  | "rules_channel_id" => some (some "rules_channel", some transformChannel)
  | "public_updates_channel_id" => some (some "public_updates_channel", some transformChannel)
  | "permission_overwrites" => some (some "overwrites", some transformOverwrites)
  | "splash_hash" => some (some "splash", some (guildHashTransformer "splashes"))
  | "banner_hash" => some (some "banner", some (guildHashTransformer "banners"))
  | "discovery_splash_hash" => some (some "discovery_splash", some (guildHashTransformer "discovery-splashes"))
  | "icon_hash" => some (some "icon", some transformIcon)
  | "avatar_hash" => some (some "avatar", some transformAvatar)
  | "rate_limit_per_user" => some (some "slowmode_delay", none)
  | "guild_id" => some (some "guild", some transformGuildId)
  | "tags" => some (some "emoji", none)
  | "default_message_notifications" => some (some "default_notifications", some (enumTransformer .NotificationLevel))
  | "video_quality_mode" => some (none, some (enumTransformer .VideoQualityMode))
  | "privacy_level" => some (none, some (enumTransformer .PrivacyLevel))
  | "format_type" => some (none, some (enumTransformer .StickerFormatType))
  | "type" => some (none, some transformType)
  | "communication_disabled_until" => some (some "timed_out_until", some transformTimestamp)
  | "expire_behavior" => some (none, some (enumTransformer .ExpireBehaviour))
  | "mfa_level" => some (none, some (enumTransformer .MFALevel))
  | "status" => some (none, some (enumTransformer .EventStatus))
  | "entity_type" => some (none, some (enumTransformer .EntityType))
  | "preferred_locale" => some (none, some (enumTransformer .Locale))
  | "image_hash" => some (some "cover_image", some transformCoverImage)
  | _ => none

/-- One raw change record `{key, old_value?, new_value?}`. -/
structure ChangeRecord where
  key : String
  old_value : Option Value
  new_value : Option Value
  deriving DecidableEq, Repr

/-- `AuditLogChanges`: the pair of diff containers produced per entry. -/
structure AuditLogChanges where
  before : AuditLogDiff
  after : AuditLogDiff
  deriving DecidableEq, Repr

/-- One role stub from a `$add`/`$remove` list: the cached guild role, or
an `Object` placeholder carrying the raw id annotated with the salvaged
name (the loop body of `AuditLogChanges._handle_role`). -/
def decodeRolePayload (t : Tables) (e : RolePayload) : RoleOrObj :=
  match t.guild.get_role e.id with
  | some role => .role role
  | none => .obj e.id (some e.name)

/-- `AuditLogChanges._handle_role`: ensure `first.roles` exists as an empty
list, then set `second.roles` to the decoded role list. -/
def handleRole (t : Tables) (first second : AuditLogDiff) (elem : List RolePayload) :
    AuditLogDiff × AuditLogDiff :=
  let first := if first.hasattr "roles" then first else first.setattr "roles" (.vrolelist [])
  let second := second.setattr "roles" (.vrolelist (elem.map (decodeRolePayload t)))
  (first, second)

/-- Subscripting an `ApplicationCommandPermissions` payload
(`_value['type']` / `old_value['permission']`); anything else raises. -/
def asPerm : Value → Except String AppCommandPermPayload
  | .vperm p => .ok p
  | _ => .error "TypeError: not an ApplicationCommandPermissions payload"

/-- Append one `(target, permission)` pair to a container's
`app_command_permissions` list attribute. -/
def acpAppend (d : AuditLogDiff) (target : AcpTarget) (perm : Bool) :
    Except String AuditLogDiff :=
  match d.getattr? "app_command_permissions" with
  | some (.vacplist l) =>
    .ok (d.setattr "app_command_permissions" (.vacplist (l ++ [(target, perm)])))
  | _ => .error "AttributeError: app_command_permissions"

/-- The target-resolution step of
`AuditLogChanges._handle_app_command_permissions`: the
`guild.id - 1` sentinel resolves to the all-channels object before the
`permission_type` discriminator is even read; otherwise dispatch on the
`type` of whichever of old/new value is present (1 = role, 2 = user,
3 = channel), with an opaque-reference fallback.  `none` marks the early
return taken when neither value is present. -/
def acpResolveTarget (t : Tables) (target_id : Int)
    (old_value new_value : Option Value) : Except String (Option AcpTarget) :=
  if target_id = t.guild.id - 1 then
    .ok (some (.allChannels t.guild.id))
  else
    match old_value <|> new_value with
    | none => .ok none
    | some v => do
      let p ← asPerm v
      let target? : Option AcpTarget :=
        if p.type = 1 then (t.guild.get_role target_id).map .role
        else if p.type = 2 then
          (getMemberLookup t (some target_id)).map (fun mu =>
            match mu with
            | .member m => .member m
            | .user u => .user u)
        else if p.type = 3 then (t.guild.get_channel target_id).map .channel
        else none
      .ok (some (target?.getD (.obj target_id)))

/-- `AuditLogChanges._handle_app_command_permissions`: resolve the record's
target, then append the old/new `permission` values to the respective
containers' `app_command_permissions` lists. -/
def handleAppCommandPermissions (t : Tables) (before after : AuditLogDiff)
    (target_id : Int) (old_value new_value : Option Value) :
    Except String (AuditLogDiff × AuditLogDiff) := do
  match ← acpResolveTarget t target_id old_value new_value with
  | none => pure (before, after)
  | some target =>
    let before ←
      match old_value with
      | some ov => do
        let p ← asPerm ov
        acpAppend before target p.permission
      | none => pure before
    let after ←
      match new_value with
      | some nv => do
        let p ← asPerm nv
        acpAppend after target p.permission
      | none => pure after
    pure (before, after)

/-- The registry lookup step of the per-record algorithm: on a miss the
key is unchanged and no transform applies; a truthy rename replaces the
attribute name. -/
def resolveTransformer (attr : String) : String × Option Transformer :=
  match TRANSFORMERS attr with
  | none => (attr, none)
  | some (key, transformer) =>
    match key with
    | some k => (if k = "" then attr else k, transformer)
    | none => (attr, transformer)

/-- Reading `elem['new_value']` as the role list of a `$add`/`$remove`
record: a missing key raises `KeyError`; iterating a non-list raises. -/
def rolesOfRecord (elem : ChangeRecord) : Except String (List RolePayload) :=
  match elem.new_value with
  | some (.vroles l) => .ok l
  | some _ => .error "TypeError: role list expected"
  | none => .error "KeyError: new_value"

/-- The per-record branch of `AuditLogChanges.__init__`: `$add` and
`$remove` route through `_handle_role` (with swapped containers for
`$remove`); any other key goes through the registry, each present raw
value is transformed (absent decodes to null), and the results are
assigned under the effective name on both containers. -/
def processRecord (t : Tables) (e : EntryCtx) (before after : AuditLogDiff)
    (elem : ChangeRecord) : Except String (AuditLogDiff × AuditLogDiff) :=
  if elem.key = "$add" then do
    let l ← rolesOfRecord elem
    .ok (handleRole t before after l)
  else if elem.key = "$remove" then do
    let l ← rolesOfRecord elem
    let (after, before) := handleRole t after before l
    .ok (before, after)
  else do
    let (attr, transformer) := resolveTransformer elem.key
    let bval ←
      match elem.old_value with
      | none => pure Value.vnull
      | some v =>
        match transformer with
        | some f => f t e v
        | none => pure v
    let before := before.setattr attr bval
    let aval ←
      match elem.new_value with
      | none => pure Value.vnull
      | some v =>
        match transformer with
        | some f => f t e v
        | none => pure v
    let after := after.setattr attr aval
    .ok (before, after)

/-- One alias mirror of the post-pass: if `after` carries the source
attribute, copy it verbatim to the alias name on `after`, then on
`before` (reading a missing `before` attribute raises). -/
def aliasOne (src dst : String) (before after : AuditLogDiff) :
    Except String (AuditLogDiff × AuditLogDiff) :=
  if after.hasattr src then
    match after.getattr? src with
    | some av =>
      let after := after.setattr dst av
      match before.getattr? src with
      | some bv => .ok (before.setattr dst bv, after)
      | none => .error "AttributeError: alias source missing on before"
    | none => .error "unreachable: hasattr"
  else .ok (before, after)

/-- The post-pass aliasing of `AuditLogChanges.__init__`:
`colour` mirrors to `color` and `expire_behavior` to `expire_behaviour`. -/
def aliasPass (before after : AuditLogDiff) : Except String AuditLogChanges := do
  let (before, after) ← aliasOne "colour" "color" before after
  let (before, after) ← aliasOne "expire_behavior" "expire_behaviour" before after
  .ok ⟨before, after⟩

/-- The normal (non-app-command-permission-update) path of
`AuditLogChanges.__init__`: fold the per-record algorithm over the raw
list starting from two empty containers, then run the alias post-pass. -/
def changesInitNormal (t : Tables) (e : EntryCtx) (data : List ChangeRecord) :
    Except String AuditLogChanges := do
  let (before, after) ← data.foldlM (fun ba elem => processRecord t e ba.1 ba.2 elem) (⟨[]⟩, ⟨[]⟩)
  aliasPass before after

/-- Parsing `int(d['key'])` in the app-command-permissions branch. -/
def parseRecordKey (elem : ChangeRecord) : Except String Int :=
  match pyIntOfString elem.key with
  | some n => .ok n
  | none => .error "ValueError: invalid literal for int"

/-- The app-command-permission-update path of `AuditLogChanges.__init__`:
both containers get an empty `app_command_permissions` list and every
record goes through the dedicated per-target decode. -/
def changesInitAcp (t : Tables) (data : List ChangeRecord) :
    Except String AuditLogChanges := do
  let before := AuditLogDiff.setattr ⟨[]⟩ "app_command_permissions" (.vacplist [])
  let after := AuditLogDiff.setattr ⟨[]⟩ "app_command_permissions" (.vacplist [])
  let (before, after) ← data.foldlM
    (fun ba d => do
      let key ← parseRecordKey d
      handleAppCommandPermissions t ba.1 ba.2 key d.old_value d.new_value)
    (before, after)
  .ok ⟨before, after⟩

/-- `AuditLogChanges.__init__`: the full-entry override for the
application-command permission update action, else the per-record
algorithm with the alias post-pass. -/
def changesInit (t : Tables) (e : EntryCtx) (data : List ChangeRecord) :
    Except String AuditLogChanges :=
  if e.action = .app_command_permission_update then changesInitAcp t data
  else changesInitNormal t e data

/-- A channel reference in an `extra` proxy: cached channel or thread, or
an opaque reference. -/
inductive ChanOrThreadObj where
  | channel (c : Channel)
  | thread (th : Thread)
  | obj (id : Int)
  deriving DecidableEq, Repr

/-- The variants of `AuditLogEntry.extra`. -/
inductive Extra where
  | memberPrune (delete_member_days members_removed : Int)
  | memberMoveOrMessageDelete (channel : ChanOrThreadObj) (count : Int)
  | memberDisconnect (count : Int)
  | pinAction (channel : ChanOrThreadObj) (message_id : Int)
  | stageInstanceAction (channel : ChanOrThreadObj)
  | memberTarget (m : Member)
  | userTarget (u : User)
  | roleTarget (r : Role)
  | roleObj (id : Int) (name : Option String)
  | integrationTarget (i : Integration)
  | objTarget (id : Int)
  deriving DecidableEq, Repr

/-- The raw `options` block of an entry payload (all keys optional on the
wire; integer-valued keys arrive as parseable scalars). -/
structure OptionsPayload where
  delete_member_days : Option Int := none
  members_removed : Option Int := none
  channel_id : Option Int := none
  count : Option Int := none
  message_id : Option Int := none
  id : Option Int := none
  type : Option String := none
  role_name : Option String := none
  application_id : Option Int := none
  deriving DecidableEq, Repr

/-- Python truthiness of the `options` dict: an empty dict is falsy. -/
def OptionsPayload.nonempty (o : OptionsPayload) : Bool :=
  o.delete_member_days.isSome || o.members_removed.isSome || o.channel_id.isSome ||
  o.count.isSome || o.message_id.isSome || o.id.isSome || o.type.isSome ||
  o.role_name.isSome || o.application_id.isSome

/-- Required subscript access `extra[key]`: a missing key raises. -/
def req {α : Type} (v : Option α) (key : String) : Except String α :=
  match v with
  | some x => .ok x
  | none => .error ("KeyError: " ++ key)

/-- `AuditLogEntry._get_integration`: caller-supplied integration table
lookup; `None` input short-circuits. -/
def getIntegration (t : Tables) (iid : Option Int) : Option Integration :=
  match iid with
  | none => none
  | some i => dictGet t.integrations i

/-- `AuditLogEntry._get_integration_by_app_id`: first integration (in
table order) whose `application_id` equals the given id. -/
def getIntegrationByAppId (t : Tables) (aid : Option Int) : Option Integration :=
  match aid with
  | none => none
  | some a => (t.integrations.map Prod.snd).find? (fun i => i.application_id == some a)

/-- `AuditLogEntry._get_app_command`: caller-supplied command table
lookup; `None` input short-circuits. -/
def getAppCommand (t : Tables) (cid : Option Int) : Option AppCommand :=
  match cid with
  | none => none
  | some i => dictGet t.app_commands i

/-- `get_channel_or_thread(...) or Object(id=...)`. -/
def channelOrThreadOrObj (t : Tables) (cid : Int) : ChanOrThreadObj :=
  match t.guild.get_channel_or_thread cid with
  | some (Sum.inl c) => .channel c
  | some (Sum.inr th) => .thread th
  | none => .obj cid

/-- The eager `extra` decode of `AuditLogEntry._from_data`: skipped unless
the action is a recognized enum member and the `options` dict is truthy;
dispatch is by action identity, then by suffix/substring match on the
action's name.  An unmatched action with options present silently yields
no `extra`. -/
def computeExtra (t : Tables) (action : AuditLogAction)
    (options : Option OptionsPayload) : Except String (Option Extra) :=
  match options with
  | none => .ok none
  | some o =>
    if action.isRecognized && o.nonempty then
      if action = .member_prune then do
        let days ← req o.delete_member_days "delete_member_days"
        let removed ← req o.members_removed "members_removed"
        .ok (some (.memberPrune days removed))
      else if action = .member_move || action = .message_delete then do
        let cid ← req o.channel_id "channel_id"
        let cnt ← req o.count "count"
        .ok (some (.memberMoveOrMessageDelete (channelOrThreadOrObj t cid) cnt))
      else if action = .member_disconnect then do
        let cnt ← req o.count "count"
        .ok (some (.memberDisconnect cnt))
      else if strEndsWith action.name "pin" then do
        let cid ← req o.channel_id "channel_id"
        let mid ← req o.message_id "message_id"
        .ok (some (.pinAction (channelOrThreadOrObj t cid) mid))
      else if strStartsWith action.name "overwrite_" then do
        let iid ← req o.id "id"
        if o.type = some "1" then
          match getMemberLookup t (some iid) with
          | some (.member m) => .ok (some (.memberTarget m))
          | some (.user u) => .ok (some (.userTarget u))
          | none => .ok none
        else if o.type = some "0" then
          match t.guild.get_role iid with
          | some r => .ok (some (.roleTarget r))
          | none => .ok (some (.roleObj iid o.role_name))
        else .ok none
      else if strStartsWith action.name "stage_instance" then do
        let cid ← req o.channel_id "channel_id"
        let channel : ChanOrThreadObj :=
          match t.guild.get_channel cid with
          | some c => .channel c
          | none => .obj cid
        .ok (some (.stageInstanceAction channel))
      else if strStartsWith action.name "app_command" then do
        let aid ← req o.application_id "application_id"
        match getIntegrationByAppId t (some aid) with
        | some i => .ok (some (.integrationTarget i))
        | none => .ok (some (.objTarget aid))
      else .ok none
    else .ok none

/-- The synthetic invite the invite target resolver reconstructs from the
already-decoded change-set. -/
structure InviteTarget where
  max_age : Value
  max_uses : Value
  code : Value
  temporary : Value
  uses : Value
  channel : Value
  inviter : Option Value
  deriving DecidableEq, Repr

/-- The polymorphic result of `AuditLogEntry.target`. -/
inductive Target where
  | guild (g : Guild)
  | channel (c : Channel)
  | member (m : Member)
  | user (u : User)
  | role (r : Role)
  | invite (i : InviteTarget)
  | emoji (e : Emoji)
  | stage_instance (s : StageInstance)
  | sticker (s : Sticker)
  | thread (th : Thread)
  | scheduled_event (ev : ScheduledEvent)
  | integration (i : Integration)
  | app_command (c : AppCommand)
  | obj (id : Int) (name : Option String)
  deriving DecidableEq, Repr

/-- Raw entry wire shape
`{id, action_type, reason?, options?, target_id?, user_id?, changes?}`. -/
structure EntryPayload where
  id : Int
  action_type : Int
  reason : Option String := none
  options : Option OptionsPayload := none
  target_id : Option Int := none
  user_id : Option Int := none
  changes : Option (List ChangeRecord) := none
  deriving DecidableEq, Repr

/-- `AuditLogEntry`: eagerly decoded scalar fields plus explicit cache
slots for the lazily memoized projections (`cached_property`).
`rawChanges` is `none` once `changes` has been computed and the raw list
discarded. -/
structure AuditLogEntry where
  action : AuditLogAction
  id : Int
  reason : Option String
  extra : Option Extra
  rawChanges : Option (List ChangeRecord)
  user : Option MemberOrUser
  targetId : Option Int
  cachedChanges : Option AuditLogChanges
  cachedTarget : Option (Option Target)
  deriving DecidableEq, Repr

/-- The scalar context handed to the change-set decoder's transformers. -/
def AuditLogEntry.ctx (e : AuditLogEntry) : EntryCtx :=
  ⟨e.action, e.targetId⟩

/-- `AuditLogEntry._from_data` (with `__init__`): the eager decode.  The
tables passed here are the ones current at construction time. -/
def AuditLogEntry.fromData (t : Tables) (data : EntryPayload) :
    Except String AuditLogEntry := do
  let action := AuditLogAction.fromCode data.action_type
  let extra ← computeExtra t action data.options
  .ok {
    action := action
    id := data.id
    reason := data.reason
    extra := extra
    rawChanges := some ((data.changes).getD [])
    user := getMemberLookup t data.user_id
    targetId := data.target_id
    cachedChanges := none
    cachedTarget := none }

/-- The `changes` cached property: on first access construct the
change-set decoder over the raw list and discard the raw list; a raised
decode error is not cached (and the raw list is kept), matching
`cached_property` on exception.  The cache-hit arm never consults
`rawChanges`. -/
def AuditLogEntry.getChanges (t : Tables) (e : AuditLogEntry) :
    Except String AuditLogChanges × AuditLogEntry :=
  match e.cachedChanges with
  | some c => (.ok c, e)
  | none =>
    match changesInit t e.ctx ((e.rawChanges).getD []) with
    | .ok c => (.ok c, { e with cachedChanges := some c, rawChanges := none })
    | .error s => (.error s, e)

/-- The `before` projection of the (memoized) change-set. -/
def AuditLogEntry.getBefore (t : Tables) (e : AuditLogEntry) :
    Except String AuditLogDiff × AuditLogEntry :=
  match e.getChanges t with
  | (.ok c, e') => (.ok c.before, e')
  | (.error s, e') => (.error s, e')

/-- The `after` projection of the (memoized) change-set. -/
def AuditLogEntry.getAfter (t : Tables) (e : AuditLogEntry) :
    Except String AuditLogDiff × AuditLogEntry :=
  match e.getChanges t with
  | (.ok c, e') => (.ok c.after, e')
  | (.error s, e') => (.error s, e')

/-- `Object(id=target_id)` on a possibly-absent raw id: `Object(None)`
raises `TypeError`. -/
def objectFallback (tid : Option Int) : Except String Target :=
  match tid with
  | some i => .ok (.obj i none)
  | none => .error "TypeError: Object id is None"

def convertTargetGuild (t : Tables) (_tid : Option Int) : Except String Target :=
  .ok (.guild t.guild)

def convertTargetChannel (t : Tables) (tid : Option Int) : Except String Target :=
  match tid.bind t.guild.get_channel with
  | some c => .ok (.channel c)
  | none => objectFallback tid

/-- `_convert_target_user`: the member/user lookup with no opaque-reference
fallback — a miss resolves to `None`. -/
def convertTargetUser (t : Tables) (tid : Option Int) :
    Except String (Option Target) :=
  match getMemberLookup t tid with
  | some (.member m) => .ok (some (.member m))
  | some (.user u) => .ok (some (.user u))
  | none => .ok none

def convertTargetRole (t : Tables) (tid : Option Int) : Except String Target :=
  match tid.bind t.guild.get_role with
  | some r => .ok (.role r)
  | none => objectFallback tid

def convertTargetEmoji (t : Tables) (tid : Option Int) : Except String Target :=
  match tid.bind t.state.get_emoji with
  | some em => .ok (.emoji em)
  | none => objectFallback tid

/-- `_convert_target_message`: same lookup as the user resolver — a miss
resolves to `None`. -/
def convertTargetMessage (t : Tables) (tid : Option Int) :
    Except String (Option Target) :=
  convertTargetUser t tid

def convertTargetStageInstance (t : Tables) (tid : Option Int) : Except String Target :=
  match tid.bind t.guild.get_stage_instance with
  | some s => .ok (.stage_instance s)
  | none => objectFallback tid

def convertTargetSticker (t : Tables) (tid : Option Int) : Except String Target :=
  match tid.bind t.state.get_sticker with
  | some s => .ok (.sticker s)
  | none => objectFallback tid

def convertTargetThread (t : Tables) (tid : Option Int) : Except String Target :=
  match tid.bind t.guild.get_thread with
  | some th => .ok (.thread th)
  | none => objectFallback tid

def convertTargetScheduledEvent (t : Tables) (tid : Option Int) : Except String Target :=
  match tid.bind t.guild.get_scheduled_event with
  | some ev => .ok (.scheduled_event ev)
  | none => objectFallback tid

def convertTargetIntegration (t : Tables) (tid : Option Int) : Except String Target :=
  match getIntegration t tid with
  | some i => .ok (.integration i)
  | none => objectFallback tid

def convertTargetAppCommand (t : Tables) (tid : Option Int) : Except String Target :=
  match getAppCommand t tid with
  | some c => .ok (.app_command c)
  | none => objectFallback tid

def convertTargetIntegrationOrAppCommand (t : Tables) (tid : Option Int) :
    Except String Target :=
  match getIntegrationByAppId t tid with
  | some i => .ok (.integration i)
  | none =>
    match getAppCommand t tid with
    | some c => .ok (.app_command c)
    | none => objectFallback tid

/-- Which change-set the invite resolver reads: `before` for a delete
action, `after` otherwise. -/
def inviteChangeset (e : AuditLogEntry) (ch : AuditLogChanges) : AuditLogDiff :=
  if e.action = .invite_delete then ch.before else ch.after

/-- The synthetic-payload construction of `_convert_target_invite`: each
required attribute read raises on absence; the trailing `inviter` read is
wrapped in `try`/`except AttributeError`, so only its absence is
tolerated (the field is left unset). -/
def buildInviteFromChangeset (cs : AuditLogDiff) : Except String Target :=
  match cs.getattr? "max_age", cs.getattr? "max_uses", cs.getattr? "code",
      cs.getattr? "temporary", cs.getattr? "uses", cs.getattr? "channel" with
  | some ma, some mu, some co, some tp, some us, some cn =>
    .ok (.invite ⟨ma, mu, co, tp, us, cn, cs.getattr? "inviter"⟩)
  | _, _, _, _, _, _ => .error "AttributeError: invite change-set attribute"

/-- `_convert_target_invite`: invites carry no target id on the wire; the
resolver reconstructs the target from the already-decoded change-set. -/
def convertTargetInvite (t : Tables) (e : AuditLogEntry) :
    Except String Target × AuditLogEntry :=
  match e.getChanges t with
  | (.error s, e') => (.error s, e')
  | (.ok ch, e') => (buildInviteFromChangeset (inviteChangeset e ch), e')

/-- The dispatch body of the `target` cached property: absent for an
absent target-kind; the kind with no resolver (webhook) falls back to a
bare opaque reference when the raw id is present, else absent. -/
def computeTarget (t : Tables) (e : AuditLogEntry) :
    Except String (Option Target) × AuditLogEntry :=
  match e.action.target_type with
  | none => (.ok none, e)
  | some k =>
    match k with
    | .guild => ((convertTargetGuild t e.targetId).map some, e)
    | .channel => ((convertTargetChannel t e.targetId).map some, e)
    | .user => (convertTargetUser t e.targetId, e)
    | .role => ((convertTargetRole t e.targetId).map some, e)
    | .invite =>
      let (r, e') := convertTargetInvite t e
      (r.map some, e')
    | .webhook =>
      match e.targetId with
      | none => (.ok none, e)
      | some i => (.ok (some (.obj i none)), e)
    | .emoji => ((convertTargetEmoji t e.targetId).map some, e)
    | .message => (convertTargetMessage t e.targetId, e)
    | .stage_instance => ((convertTargetStageInstance t e.targetId).map some, e)
    | .sticker => ((convertTargetSticker t e.targetId).map some, e)
    | .thread => ((convertTargetThread t e.targetId).map some, e)
    | .guild_scheduled_event => ((convertTargetScheduledEvent t e.targetId).map some, e)
    | .integration => ((convertTargetIntegration t e.targetId).map some, e)
    | .integration_or_app_command =>
      ((convertTargetIntegrationOrAppCommand t e.targetId).map some, e)

/-- The `target` cached property: computed once on first access and
memoized; an exception is not cached. -/
def AuditLogEntry.getTarget (t : Tables) (e : AuditLogEntry) :
    Except String (Option Target) × AuditLogEntry :=
  match e.cachedTarget with
  | some v => (.ok v, e)
  | none =>
    match computeTarget t e with
    | (.ok v, e') => (.ok v, { e' with cachedTarget := some v })
    | (.error s, e') => (.error s, e')

/-- Reading `entry.extra`: a plain attribute set eagerly at construction
(the tables passed at read time are not consulted). -/
def AuditLogEntry.getExtra (_t : Tables) (e : AuditLogEntry) :
    Option Extra × AuditLogEntry :=
  (e.extra, e)

/-- The `category` cached property: a pure lookup on the action's static
metadata. -/
def AuditLogEntry.getCategory (e : AuditLogEntry) : Option Category :=
  e.action.category

/-! Shared concrete fixtures used by the witnesses. -/

def roleW : Role := ⟨10, "mod"⟩

def guildW : Guild := ⟨100, [roleW], [⟨5⟩], [⟨6⟩], [⟨7⟩], [⟨11⟩], [⟨12⟩]⟩

def stateW : ConnectionState := ⟨[⟨13⟩], [⟨14⟩], []⟩

def tablesW : Tables :=
  ⟨guildW, stateW, [(8, ⟨8⟩)], [(15, ⟨15, some 16⟩)], [(17, ⟨17⟩)]⟩

/-- A guild with entirely empty caches and empty caller tables. -/
def tablesEmptyW : Tables := ⟨⟨100, [], [], [], [], [], []⟩, ⟨[], [], []⟩, [], [], []⟩

theorem computeExtra_unrecognized (t : Tables) (c : Int) (o : Option OptionsPayload) :
    computeExtra t (.unrecognized c) o = .ok none := by
  cases o <;> simp [computeExtra, AuditLogAction.isRecognized]

/-- C1: a raw entry with an unrecognized `action_type` constructs without
error, its `category` and `target` projections are absent, and `changes`
still decodes the raw record list through the normal per-record
algorithm. -/
theorem unknown_action_constructs_gracefully (t t' : Tables) (data : EntryPayload) (c : Int)
    (h : AuditLogAction.fromCode data.action_type = .unrecognized c) :
    ∃ e : AuditLogEntry,
      AuditLogEntry.fromData t data = .ok e
      ∧ e.getCategory = none
      ∧ (e.getTarget t').1 = .ok none
      ∧ (e.getChanges t').1 = changesInitNormal t' e.ctx ((data.changes).getD []) := by
  refine ⟨{ action := .unrecognized c
            id := data.id
            reason := data.reason
            extra := none
            rawChanges := some ((data.changes).getD [])
            user := getMemberLookup t data.user_id
            targetId := data.target_id
            cachedChanges := none
            cachedTarget := none }, ?_, ?_, ?_, ?_⟩
  · simp [AuditLogEntry.fromData, h, computeExtra_unrecognized]
    rfl
  · rfl
  · rfl
  · simp only [AuditLogEntry.getChanges, AuditLogEntry.ctx, Option.getD_some]
    rw [show changesInit t' ⟨AuditLogAction.unrecognized c, data.target_id⟩
        ((data.changes).getD []) =
        changesInitNormal t' ⟨AuditLogAction.unrecognized c, data.target_id⟩
        ((data.changes).getD []) from by simp [changesInit]]
    cases changesInitNormal t' ⟨AuditLogAction.unrecognized c, data.target_id⟩
      ((data.changes).getD []) <;> rfl

def dataUnknownW : EntryPayload :=
  { id := 1, action_type := 3, target_id := some 42,
    changes := some [⟨"name", some (.vstr "old"), some (.vstr "new")⟩] }

theorem unknown_action_constructs_gracefully_witness :
    AuditLogAction.fromCode dataUnknownW.action_type = .unrecognized 3
    ∧ ∃ e : AuditLogEntry,
        AuditLogEntry.fromData tablesW dataUnknownW = .ok e
        ∧ e.getCategory = none
        ∧ (e.getTarget tablesW).1 = .ok none
        ∧ (e.getChanges tablesW).1 =
            changesInitNormal tablesW e.ctx ((dataUnknownW.changes).getD []) :=
  ⟨rfl, unknown_action_constructs_gracefully tablesW tablesW dataUnknownW 3 rfl⟩

/-- Mapping an actor-lookup result into the `target` result type. -/
def memberOrUserTarget : MemberOrUser → Target
  | .member m => .member m
  | .user u => .user u

/-- Following the spec's words: a target value is "the locally cached
entity" when it comes from one of the supplied lookup tables. -/
def Target.locallyCached (t : Tables) : Target → Prop
  | .guild g => g = t.guild
  | .channel c => c ∈ t.guild.channels
  | .member m => m ∈ t.guild.members
  | .user u => u ∈ t.users.map Prod.snd
  | .role r => r ∈ t.guild.roles
  | .invite _ => False
  | .emoji em => em ∈ t.state.emojis
  | .stage_instance s => s ∈ t.guild.stage_instances
  | .sticker s => s ∈ t.state.stickers
  | .thread th => th ∈ t.guild.threads
  | .scheduled_event ev => ev ∈ t.guild.scheduled_events
  | .integration i => i ∈ t.integrations.map Prod.snd
  | .app_command c => c ∈ t.app_commands.map Prod.snd
  | .obj _ _ => False

instance (t : Tables) (tgt : Target) : Decidable (Target.locallyCached t tgt) := by
  cases tgt <;> simp only [Target.locallyCached] <;> infer_instance

theorem dictGet_mem {α : Type} {d : List (Int × α)} {k : Int} {x : α}
    (h : dictGet d k = some x) : x ∈ d.map Prod.snd := by
  unfold dictGet at h
  cases hf : d.find? (fun p => p.1 == k) with
  | none => rw [hf] at h; cases h
  | some p =>
    rw [hf] at h
    obtain rfl := Option.some.inj h
    exact List.mem_map_of_mem Prod.snd (List.mem_of_find?_eq_some hf)

theorem getTarget_fst_of_uncached (t : Tables) (e : AuditLogEntry)
    (hc : e.cachedTarget = none) :
    (e.getTarget t).1 = (computeTarget t e).1 := by
  unfold AuditLogEntry.getTarget
  rw [hc]
  rcases h : computeTarget t e with ⟨r, e2⟩
  cases r <;> rfl

/-- C2 counterexample: a kick entry (recognized target-kind `user`) with a
present raw target id but no cached member/user resolves `target` to an
absent value, not to an opaque reference. -/
theorem target_user_kind_absent_counterexample :
    AuditLogAction.kick.target_type = some TargetKind.user
    ∧ (AuditLogEntry.fromData tablesEmptyW
        { id := 1, action_type := 20, target_id := some 42 }).map
        (fun e => ((e.getTarget tablesEmptyW).1, e.targetId))
      = .ok (.ok none, some 42) :=
  ⟨rfl, rfl⟩

/-- C2 (amended): for an uncached entry whose action has a recognized
target-kind other than invite — with the raw id present, the user and
message resolvers yield the cached member/user or absent on a lookup
miss, while every other kind yields a non-absent target: the locally
cached entity or an opaque reference carrying the raw id (a bare one for
the resolver-less webhook kind); with the raw id absent, the webhook,
user, and message kinds resolve to absent. -/
theorem target_resolution_by_kind (t : Tables) (e : AuditLogEntry) (k : TargetKind) (i : Int)
    (hc : e.cachedTarget = none) (hk : e.action.target_type = some k)
    (hinv : k ≠ TargetKind.invite) :
    (e.targetId = some i → (k = .user ∨ k = .message) →
        (e.getTarget t).1 = .ok ((getMemberLookup t (some i)).map memberOrUserTarget))
    ∧ (e.targetId = some i → k ≠ .user → k ≠ .message →
        ∃ tgt, (e.getTarget t).1 = .ok (some tgt)
          ∧ (Target.locallyCached t tgt ∨ tgt = Target.obj i none))
    ∧ (e.targetId = none → (k = .webhook ∨ k = .user ∨ k = .message) →
        (e.getTarget t).1 = .ok none) := by
  have hfst := getTarget_fst_of_uncached t e hc
  refine ⟨?_, ?_, ?_⟩
  · rintro hid (rfl | rfl) <;>
    · rw [hfst]
      unfold computeTarget
      rw [hk, hid]
      cases hm : getMemberLookup t (some i) with
      | none => simp [convertTargetUser, convertTargetMessage, hm]
      | some mu =>
        cases mu <;>
          simp [convertTargetUser, convertTargetMessage, hm, memberOrUserTarget]
  · intro hid hu hm
    rw [hfst]
    unfold computeTarget
    rw [hk, hid]
    cases k with
    | guild =>
      exact ⟨.guild t.guild, rfl, Or.inl rfl⟩
    | channel =>
      cases hch : t.guild.get_channel i with
      | some c =>
        refine ⟨.channel c, ?_, Or.inl (List.mem_of_find?_eq_some hch)⟩
        simp [convertTargetChannel, hch, Except.map]
      | none =>
        refine ⟨.obj i none, ?_, Or.inr rfl⟩
        simp [convertTargetChannel, hch, objectFallback, Except.map]
    | user => exact absurd rfl hu
    | message => exact absurd rfl hm
    | invite => exact absurd rfl hinv
    | webhook => exact ⟨.obj i none, rfl, Or.inr rfl⟩
    | role =>
      cases hch : t.guild.get_role i with
      | some r =>
        refine ⟨.role r, ?_, Or.inl (List.mem_of_find?_eq_some hch)⟩
        simp [convertTargetRole, hch, Except.map]
      | none =>
        refine ⟨.obj i none, ?_, Or.inr rfl⟩
        simp [convertTargetRole, hch, objectFallback, Except.map]
    | emoji =>
      cases hch : t.state.get_emoji i with
      | some em =>
        refine ⟨.emoji em, ?_, Or.inl (List.mem_of_find?_eq_some hch)⟩
        simp [convertTargetEmoji, hch, Except.map]
      | none =>
        refine ⟨.obj i none, ?_, Or.inr rfl⟩
        simp [convertTargetEmoji, hch, objectFallback, Except.map]
    | stage_instance =>
      cases hch : t.guild.get_stage_instance i with
      | some sI =>
        refine ⟨.stage_instance sI, ?_, Or.inl (List.mem_of_find?_eq_some hch)⟩
        simp [convertTargetStageInstance, hch, Except.map]
      | none =>
        refine ⟨.obj i none, ?_, Or.inr rfl⟩
        simp [convertTargetStageInstance, hch, objectFallback, Except.map]
    | sticker =>
      cases hch : t.state.get_sticker i with
      | some st =>
        refine ⟨.sticker st, ?_, Or.inl (List.mem_of_find?_eq_some hch)⟩
        simp [convertTargetSticker, hch, Except.map]
      | none =>
        refine ⟨.obj i none, ?_, Or.inr rfl⟩
        simp [convertTargetSticker, hch, objectFallback, Except.map]
    | thread =>
      cases hch : t.guild.get_thread i with
      | some th =>
        refine ⟨.thread th, ?_, Or.inl (List.mem_of_find?_eq_some hch)⟩
        simp [convertTargetThread, hch, Except.map]
      | none =>
        refine ⟨.obj i none, ?_, Or.inr rfl⟩
        simp [convertTargetThread, hch, objectFallback, Except.map]
    | guild_scheduled_event =>
      cases hch : t.guild.get_scheduled_event i with
      | some ev =>
        refine ⟨.scheduled_event ev, ?_, Or.inl (List.mem_of_find?_eq_some hch)⟩
        simp [convertTargetScheduledEvent, hch, Except.map]
      | none =>
        refine ⟨.obj i none, ?_, Or.inr rfl⟩
        simp [convertTargetScheduledEvent, hch, objectFallback, Except.map]
    | integration =>
      cases hch : dictGet t.integrations i with
      | some ig =>
        refine ⟨.integration ig, ?_, Or.inl (dictGet_mem hch)⟩
        simp [convertTargetIntegration, getIntegration, hch, Except.map]
      | none =>
        refine ⟨.obj i none, ?_, Or.inr rfl⟩
        simp [convertTargetIntegration, getIntegration, hch, objectFallback, Except.map]
    | integration_or_app_command =>
      cases hby : (t.integrations.map Prod.snd).find? (fun g => g.application_id == some i) with
      | some ig =>
        refine ⟨.integration ig, ?_, Or.inl (List.mem_of_find?_eq_some hby)⟩
        simp [convertTargetIntegrationOrAppCommand, getIntegrationByAppId, hby, Except.map]
      | none =>
        cases hac : dictGet t.app_commands i with
        | some ac =>
          refine ⟨.app_command ac, ?_, Or.inl (dictGet_mem hac)⟩
          simp [convertTargetIntegrationOrAppCommand, getIntegrationByAppId,
            getAppCommand, hby, hac, Except.map]
        | none =>
          refine ⟨.obj i none, ?_, Or.inr rfl⟩
          simp [convertTargetIntegrationOrAppCommand, getIntegrationByAppId,
            getAppCommand, hby, hac, objectFallback, Except.map]
  · rintro hid (rfl | rfl | rfl) <;>
    · rw [hfst]
      unfold computeTarget
      rw [hk, hid]
      all_goals rfl

/-- A concrete role-update entry whose raw target id matches the cached
role `roleW`. -/
def entryRoleW : AuditLogEntry :=
  ⟨.role_update, 2, none, none, some [], none, some 10, none, none⟩

theorem target_resolution_by_kind_witness :
    ∃ tgt, (entryRoleW.getTarget tablesW).1 = .ok (some tgt)
      ∧ (Target.locallyCached tablesW tgt ∨ tgt = Target.obj 10 none) :=
  (target_resolution_by_kind tablesW entryRoleW .role 10 rfl rfl
    (by decide)).2.1 rfl (by decide) (by decide)

theorem getTarget_cached_hit (t : Tables) (e : AuditLogEntry) (v : Option Target)
    (h : e.cachedTarget = some v) : e.getTarget t = (.ok v, e) := by
  unfold AuditLogEntry.getTarget
  rw [h]

theorem getTarget_caches (t : Tables) (e : AuditLogEntry) (v : Option Target)
    (h : (e.getTarget t).1 = .ok v) : ((e.getTarget t).2).cachedTarget = some v := by
  unfold AuditLogEntry.getTarget at h ⊢
  cases hct : e.cachedTarget with
  | some v0 =>
    rw [hct] at h
    obtain rfl : v0 = v := Except.ok.inj h
    exact hct
  | none =>
    rw [hct] at h
    rcases hcp : computeTarget t e with ⟨r, e2⟩
    rw [hcp] at h
    cases r with
    | ok v0 =>
      obtain rfl : v0 = v := Except.ok.inj h
      rfl
    | error s => exact Except.noConfusion h

theorem getChanges_cached_hit (t : Tables) (e : AuditLogEntry) (c : AuditLogChanges)
    (h : e.cachedChanges = some c) : e.getChanges t = (.ok c, e) := by
  unfold AuditLogEntry.getChanges
  rw [h]

theorem getChanges_caches (t : Tables) (e : AuditLogEntry) (c : AuditLogChanges)
    (h : (e.getChanges t).1 = .ok c) : ((e.getChanges t).2).cachedChanges = some c := by
  unfold AuditLogEntry.getChanges at h ⊢
  cases hct : e.cachedChanges with
  | some c0 =>
    rw [hct] at h
    obtain rfl : c0 = c := Except.ok.inj h
    exact hct
  | none =>
    rw [hct] at h
    cases hcp : changesInit t e.ctx ((e.rawChanges).getD []) with
    | ok c0 =>
      rw [hcp] at h
      obtain rfl : c0 = c := Except.ok.inj h
      rfl
    | error s =>
      rw [hcp] at h
      exact Except.noConfusion h

/-- C3: the `target` and `changes` projections are memoized — once a first
access returns a value, a second access returns the identical value even
against different (mutated) lookup tables; `extra` is a plain eagerly
computed attribute, so a second read against different tables returns the
first read's value. -/
theorem derived_projections_memoized (t1 t2 : Tables) (e : AuditLogEntry) :
    (∀ v, (e.getTarget t1).1 = .ok v →
        (((e.getTarget t1).2).getTarget t2).1 = .ok v)
    ∧ (∀ c, (e.getChanges t1).1 = .ok c →
        (((e.getChanges t1).2).getChanges t2).1 = .ok c)
    ∧ (((e.getExtra t1).2).getExtra t2).1 = (e.getExtra t1).1 := by
  refine ⟨?_, ?_, rfl⟩
  · intro v hv
    rw [getTarget_cached_hit t2 _ v (getTarget_caches t1 e v hv)]
  · intro c hc
    rw [getChanges_cached_hit t2 _ c (getChanges_caches t1 e c hc)]

theorem derived_projections_memoized_witness :
    (((entryRoleW.getTarget tablesW).2).getTarget tablesEmptyW).1 =
      .ok (some (.role roleW))
    ∧ (((entryRoleW.getChanges tablesW).2).getChanges tablesEmptyW).1 =
      .ok ⟨⟨[]⟩, ⟨[]⟩⟩ :=
  ⟨(derived_projections_memoized tablesW tablesEmptyW entryRoleW).1
      (some (.role roleW)) rfl,
   (derived_projections_memoized tablesW tablesEmptyW entryRoleW).2.1
      ⟨⟨[]⟩, ⟨[]⟩⟩ rfl⟩

theorem exceptBind_ok {ε α β : Type} (a : α) (f : α → Except ε β) :
    (Except.ok a : Except ε α) >>= f = f a := rfl

theorem exceptBind_error {ε α β : Type} (s : ε) (f : α → Except ε β) :
    (Except.error s : Except ε α) >>= f = Except.error s := rfl

theorem processRecord_unknown_key (t : Tables) (e : EntryCtx)
    (before after : AuditLogDiff) (elem : ChangeRecord)
    (h1 : elem.key ≠ "$add") (h2 : elem.key ≠ "$remove")
    (h3 : TRANSFORMERS elem.key = none) :
    processRecord t e before after elem =
      .ok (before.setattr elem.key ((elem.old_value).getD .vnull),
           after.setattr elem.key ((elem.new_value).getD .vnull)) := by
  unfold processRecord
  rw [if_neg h1, if_neg h2]
  unfold resolveTransformer
  rw [h3]
  cases elem.old_value <;> cases elem.new_value <;> rfl

theorem changesInitNormal_singleton (t : Tables) (e : EntryCtx) (elem : ChangeRecord)
    (b a : AuditLogDiff) (h : processRecord t e ⟨[]⟩ ⟨[]⟩ elem = .ok (b, a)) :
    changesInitNormal t e [elem] = aliasPass b a := by
  unfold changesInitNormal
  simp only [List.foldlM_cons, List.foldlM_nil, h, exceptBind_ok]
  rfl

/-- C5: a change record whose key is neither `$add` nor `$remove` nor in
the transformer registry decodes as an identity pass-through: the decoded
before/after values equal the raw old/new values (absent decoding to
null) under the unchanged raw key on both containers. -/
theorem unknown_key_identity_passthrough (t : Tables) (e : EntryCtx) (elem : ChangeRecord)
    (h1 : elem.key ≠ "$add") (h2 : elem.key ≠ "$remove")
    (h3 : TRANSFORMERS elem.key = none)
    (h4 : e.action ≠ AuditLogAction.app_command_permission_update) :
    ∃ ch, changesInit t e [elem] = .ok ch
      ∧ ch.before.getattr? elem.key = some ((elem.old_value).getD .vnull)
      ∧ ch.after.getattr? elem.key = some ((elem.new_value).getD .vnull) := by
  have hp := processRecord_unknown_key t e ⟨[]⟩ ⟨[]⟩ elem h1 h2 h3
  have hfull : changesInit t e [elem] =
      aliasPass (AuditLogDiff.setattr ⟨[]⟩ elem.key ((elem.old_value).getD .vnull))
        (AuditLogDiff.setattr ⟨[]⟩ elem.key ((elem.new_value).getD .vnull)) := by
    simp only [changesInit, if_neg h4]
    exact changesInitNormal_singleton t e elem _ _ hp
  have h5 : elem.key ≠ "expire_behavior" := by
    intro hh
    rw [hh] at h3
    exact Option.noConfusion h3
  by_cases hc : elem.key = "colour"
  · rw [hc] at hfull ⊢
    refine ⟨⟨⟨[("colour", (elem.old_value).getD .vnull),
              ("color", (elem.old_value).getD .vnull)]⟩,
            ⟨[("colour", (elem.new_value).getD .vnull),
              ("color", (elem.new_value).getD .vnull)]⟩⟩, ?_, ?_, ?_⟩
    · rw [hfull]
      rfl
    · rfl
    · rfl
  · have ha : aliasPass (AuditLogDiff.setattr ⟨[]⟩ elem.key ((elem.old_value).getD .vnull))
        (AuditLogDiff.setattr ⟨[]⟩ elem.key ((elem.new_value).getD .vnull)) =
        .ok ⟨AuditLogDiff.setattr ⟨[]⟩ elem.key ((elem.old_value).getD .vnull),
             AuditLogDiff.setattr ⟨[]⟩ elem.key ((elem.new_value).getD .vnull)⟩ := by
      unfold aliasPass aliasOne AuditLogDiff.hasattr AuditLogDiff.getattr? AuditLogDiff.setattr
      simp only [setattrList, lookupAttr, if_neg hc, if_neg h5, Option.isSome_none,
        Bool.false_eq_true, if_false, exceptBind_ok]
    rw [hfull, ha]
    exact ⟨_, rfl, getattr_setattr_same ⟨[]⟩ elem.key _, getattr_setattr_same ⟨[]⟩ elem.key _⟩

theorem unknown_key_identity_passthrough_witness :
    ∃ ch, changesInit tablesW ⟨.role_update, none⟩
        [⟨"mystery_field", some (.vint 4), none⟩] = .ok ch
      ∧ ch.before.getattr? "mystery_field" = some (.vint 4)
      ∧ ch.after.getattr? "mystery_field" = some .vnull :=
  unknown_key_identity_passthrough tablesW ⟨.role_update, none⟩
    ⟨"mystery_field", some (.vint 4), none⟩
    (by decide) (by decide) rfl (by decide)

/-- C4: with a `$add` record listing roles `[A, B]` and a `$remove` record
listing `[C]`, the decoded `after.roles` is the decoded `[A, B]` and
`before.roles` the decoded `[C]`; with only `$add`, `before.roles`
defaults to the empty list, and with only `$remove`, `after.roles`
defaults to the empty list. -/
theorem add_remove_role_decoding (t : Tables) (e : EntryCtx) (A B C : RolePayload)
    (h : e.action ≠ AuditLogAction.app_command_permission_update) :
    (∃ ch, changesInit t e
        [⟨"$add", none, some (.vroles [A, B])⟩, ⟨"$remove", none, some (.vroles [C])⟩]
        = .ok ch
      ∧ ch.after.getattr? "roles" =
          some (.vrolelist [decodeRolePayload t A, decodeRolePayload t B])
      ∧ ch.before.getattr? "roles" = some (.vrolelist [decodeRolePayload t C]))
    ∧ (∃ ch, changesInit t e [⟨"$add", none, some (.vroles [A, B])⟩] = .ok ch
      ∧ ch.before.getattr? "roles" = some (.vrolelist [])
      ∧ ch.after.getattr? "roles" =
          some (.vrolelist [decodeRolePayload t A, decodeRolePayload t B]))
    ∧ (∃ ch, changesInit t e [⟨"$remove", none, some (.vroles [C])⟩] = .ok ch
      ∧ ch.after.getattr? "roles" = some (.vrolelist [])
      ∧ ch.before.getattr? "roles" = some (.vrolelist [decodeRolePayload t C])) := by
  refine ⟨?_, ?_, ?_⟩ <;>
  · simp only [changesInit, if_neg h]
    exact ⟨_, rfl, rfl, rfl⟩

theorem add_remove_role_decoding_witness :
    ∃ ch, changesInit tablesW ⟨.member_role_update, none⟩
        [⟨"$add", none, some (.vroles [⟨10, "mod"⟩, ⟨999, "ghost"⟩])⟩,
         ⟨"$remove", none, some (.vroles [⟨5, "x"⟩])⟩] = .ok ch
      ∧ ch.after.getattr? "roles" =
          some (.vrolelist [decodeRolePayload tablesW ⟨10, "mod"⟩,
            decodeRolePayload tablesW ⟨999, "ghost"⟩])
      ∧ ch.before.getattr? "roles" =
          some (.vrolelist [decodeRolePayload tablesW ⟨5, "x"⟩]) :=
  (add_remove_role_decoding tablesW ⟨.member_role_update, none⟩
    ⟨10, "mod"⟩ ⟨999, "ghost"⟩ ⟨5, "x"⟩ (by decide)).1

/-- C10: both `$add` and `$remove` read the role list from the record's
`new_value` — a `$remove` record with an arbitrary `old_value` and
`new_value` listing `C` decodes `before.roles` from `C`. -/
theorem remove_roles_read_from_new_value (t : Tables) (e : EntryCtx)
    (C : List RolePayload) (ov : Option Value)
    (h : e.action ≠ AuditLogAction.app_command_permission_update) :
    ∃ ch, changesInit t e [⟨"$remove", ov, some (.vroles C)⟩] = .ok ch
      ∧ ch.before.getattr? "roles" = some (.vrolelist (C.map (decodeRolePayload t)))
      ∧ ch.after.getattr? "roles" = some (.vrolelist []) := by
  simp only [changesInit, if_neg h]
  exact ⟨_, rfl, rfl, rfl⟩

theorem remove_roles_read_from_new_value_witness :
    ∃ ch, changesInit tablesW ⟨.member_role_update, none⟩
        [⟨"$remove", some (.vroles [⟨1, "decoy"⟩]), some (.vroles [⟨5, "x"⟩])⟩] = .ok ch
      ∧ ch.before.getattr? "roles" =
          some (.vrolelist ([⟨5, "x"⟩].map (decodeRolePayload tablesW)))
      ∧ ch.after.getattr? "roles" = some (.vrolelist []) :=
  remove_roles_read_from_new_value tablesW ⟨.member_role_update, none⟩
    [⟨5, "x"⟩] (some (.vroles [⟨1, "decoy"⟩])) (by decide)

/-- C6: in the app-command-permission-update decode, a record whose parsed
key equals `guild.id - 1` resolves its target to the all-channels
sentinel before the `permission_type` discriminator is even read; any
other record dispatches on the `type` of whichever of old/new value is
present (1 = role, 2 = user, 3 = channel), with an opaque-reference
fallback on a lookup miss; and the per-record handler appends the
resolved sentinel target with the respective permissions. -/
theorem acp_sentinel_and_dispatch (t : Tables) (tid : Int)
    (op np : Option AppCommandPermPayload) :
    (tid = t.guild.id - 1 →
      acpResolveTarget t tid (op.map .vperm) (np.map .vperm) =
        .ok (some (.allChannels t.guild.id)))
    ∧ (tid ≠ t.guild.id - 1 → ∀ p, (op <|> np) = some p →
      acpResolveTarget t tid (op.map .vperm) (np.map .vperm) =
        .ok (some (Option.getD
          (if p.type = 1 then (t.guild.get_role tid).map AcpTarget.role
           else if p.type = 2 then
             (getMemberLookup t (some tid)).map (fun mu =>
               match mu with
               | .member m => AcpTarget.member m
               | .user u => AcpTarget.user u)
           else if p.type = 3 then (t.guild.get_channel tid).map AcpTarget.channel
           else none) (AcpTarget.obj tid))))
    ∧ (tid = t.guild.id - 1 → ∀ l1 l2 : List (AcpTarget × Bool),
      handleAppCommandPermissions t
        ⟨[("app_command_permissions", .vacplist l1)]⟩
        ⟨[("app_command_permissions", .vacplist l2)]⟩
        tid (op.map .vperm) (np.map .vperm)
      = .ok (⟨[("app_command_permissions", .vacplist
            (match op with
             | some p => l1 ++ [(AcpTarget.allChannels t.guild.id, p.permission)]
             | none => l1))]⟩,
          ⟨[("app_command_permissions", .vacplist
            (match np with
             | some p => l2 ++ [(AcpTarget.allChannels t.guild.id, p.permission)]
             | none => l2))]⟩)) := by
  have hsent : tid = t.guild.id - 1 →
      acpResolveTarget t tid (op.map .vperm) (np.map .vperm) =
        .ok (some (.allChannels t.guild.id)) := by
    intro hs
    unfold acpResolveTarget
    rw [if_pos hs]
  refine ⟨hsent, ?_, ?_⟩
  · intro hne p hp
    unfold acpResolveTarget
    rw [if_neg hne]
    cases op with
    | some p0 =>
      obtain rfl : p0 = p := Option.some.inj hp
      rfl
    | none =>
      cases np with
      | some p1 =>
        obtain rfl : p1 = p := Option.some.inj hp
        rfl
      | none => exact Option.noConfusion hp
  · intro hs l1 l2
    unfold handleAppCommandPermissions
    rw [hsent hs]
    cases op <;> cases np <;> rfl

theorem acp_sentinel_and_dispatch_witness :
    acpResolveTarget tablesW 99
        ((some ⟨3, true⟩ : Option AppCommandPermPayload).map .vperm)
        ((none : Option AppCommandPermPayload).map .vperm)
      = .ok (some (.allChannels 100))
    ∧ acpResolveTarget tablesW 5
        ((some ⟨3, true⟩ : Option AppCommandPermPayload).map .vperm)
        ((none : Option AppCommandPermPayload).map .vperm)
      = .ok (some (.channel ⟨5⟩)) :=
  ⟨(acp_sentinel_and_dispatch tablesW 99 (some ⟨3, true⟩) none).1 (by decide),
   (acp_sentinel_and_dispatch tablesW 5 (some ⟨3, true⟩) none).2.1 (by decide)
     ⟨3, true⟩ rfl⟩

theorem buildInvite_eq (cs : AuditLogDiff) (ma mu co tp us cn : Value)
    (h1 : cs.getattr? "max_age" = some ma) (h2 : cs.getattr? "max_uses" = some mu)
    (h3 : cs.getattr? "code" = some co) (h4 : cs.getattr? "temporary" = some tp)
    (h5 : cs.getattr? "uses" = some us) (h6 : cs.getattr? "channel" = some cn) :
    buildInviteFromChangeset cs =
      .ok (.invite ⟨ma, mu, co, tp, us, cn, cs.getattr? "inviter"⟩) := by
  unfold buildInviteFromChangeset
  rw [h1, h2, h3, h4, h5, h6]

/-- C7: the invite target is reconstructed from the already-decoded
change-set — from `before` exactly when the action is invite-delete and
from `after` otherwise; the inviter is read off the same change-set, and
only its absence is tolerated (the field stays unset, no failure). -/
theorem invite_target_changeset_selection (t : Tables) (e : AuditLogEntry)
    (ch : AuditLogChanges) (ma mu co tp us cn : Value)
    (hch : (e.getChanges t).1 = .ok ch)
    (h1 : (inviteChangeset e ch).getattr? "max_age" = some ma)
    (h2 : (inviteChangeset e ch).getattr? "max_uses" = some mu)
    (h3 : (inviteChangeset e ch).getattr? "code" = some co)
    (h4 : (inviteChangeset e ch).getattr? "temporary" = some tp)
    (h5 : (inviteChangeset e ch).getattr? "uses" = some us)
    (h6 : (inviteChangeset e ch).getattr? "channel" = some cn) :
    (convertTargetInvite t e).1 =
      .ok (.invite ⟨ma, mu, co, tp, us, cn, (inviteChangeset e ch).getattr? "inviter"⟩)
    ∧ (e.action = .invite_delete → inviteChangeset e ch = ch.before)
    ∧ (e.action ≠ .invite_delete → inviteChangeset e ch = ch.after) := by
  refine ⟨?_, fun hd => by unfold inviteChangeset; rw [if_pos hd],
    fun hd => by unfold inviteChangeset; rw [if_neg hd]⟩
  unfold convertTargetInvite
  rcases hgc : e.getChanges t with ⟨r, e2⟩
  have hr : r = Except.ok ch := by rw [hgc] at hch; exact hch
  subst hr
  exact buildInvite_eq (inviteChangeset e ch) ma mu co tp us cn h1 h2 h3 h4 h5 h6

/-- An invite-delete entry whose change records carry the invite fields in
their old values and no inviter at all. -/
def entryInviteW : AuditLogEntry :=
  ⟨.invite_delete, 3, none, none, some [
    ⟨"max_age", some (.vint 3600), none⟩,
    ⟨"max_uses", some (.vint 5), none⟩,
    ⟨"code", some (.vstr "abc"), none⟩,
    ⟨"temporary", some (.vbool false), none⟩,
    ⟨"uses", some (.vint 2), none⟩,
    ⟨"channel_id", some (.vint 5), none⟩], none, none, none, none⟩

/-- The change-set `entryInviteW` decodes to. -/
def chInviteW : AuditLogChanges :=
  ⟨⟨[("max_age", .vint 3600), ("max_uses", .vint 5), ("code", .vstr "abc"),
     ("temporary", .vbool false), ("uses", .vint 2), ("channel", .vchannel ⟨5⟩)]⟩,
   ⟨[("max_age", .vnull), ("max_uses", .vnull), ("code", .vnull),
     ("temporary", .vnull), ("uses", .vnull), ("channel", .vnull)]⟩⟩

theorem invite_target_changeset_selection_witness :
    (convertTargetInvite tablesW entryInviteW).1 =
      .ok (.invite ⟨.vint 3600, .vint 5, .vstr "abc", .vbool false, .vint 2,
        .vchannel ⟨5⟩, none⟩)
    ∧ inviteChangeset entryInviteW chInviteW = chInviteW.before :=
  ⟨(invite_target_changeset_selection tablesW entryInviteW chInviteW
      (.vint 3600) (.vint 5) (.vstr "abc") (.vbool false) (.vint 2) (.vchannel ⟨5⟩)
      rfl rfl rfl rfl rfl rfl rfl).1,
   (invite_target_changeset_selection tablesW entryInviteW chInviteW
      (.vint 3600) (.vint 5) (.vstr "abc") (.vbool false) (.vint 2) (.vchannel ⟨5⟩)
      rfl rfl rfl rfl rfl rfl rfl).2.1 rfl⟩

/-- C8: a role id listed in a `$add`/`$remove` record with no matching
guild role decodes to an opaque reference carrying that raw id, annotated
with the name salvaged from the raw payload; the decoded element sits in
the roles list that `_handle_role` assigns, and no error is raised (the
handler is total). -/
theorem unresolvable_role_opaque_reference (t : Tables) (first second : AuditLogDiff)
    (l : List RolePayload) (p : RolePayload) (hp : p ∈ l)
    (h : t.guild.get_role p.id = none) :
    decodeRolePayload t p = .obj p.id (some p.name)
    ∧ RoleOrObj.obj p.id (some p.name) ∈ l.map (decodeRolePayload t)
    ∧ (handleRole t first second l).2.getattr? "roles" =
        some (.vrolelist (l.map (decodeRolePayload t))) := by
  have hdec : decodeRolePayload t p = .obj p.id (some p.name) := by
    unfold decodeRolePayload
    rw [h]
  refine ⟨hdec, ?_, ?_⟩
  · have := List.mem_map_of_mem (decodeRolePayload t) hp
    rwa [hdec] at this
  · unfold handleRole
    exact getattr_setattr_same _ _ _

theorem unresolvable_role_opaque_reference_witness :
    decodeRolePayload tablesW ⟨999, "ghost"⟩ = .obj 999 (some "ghost")
    ∧ RoleOrObj.obj 999 (some "ghost") ∈
        [(⟨10, "mod"⟩ : RolePayload), ⟨999, "ghost"⟩].map (decodeRolePayload tablesW)
    ∧ (handleRole tablesW ⟨[]⟩ ⟨[]⟩ [⟨10, "mod"⟩, ⟨999, "ghost"⟩]).2.getattr? "roles" =
        some (.vrolelist ([(⟨10, "mod"⟩ : RolePayload), ⟨999, "ghost"⟩].map
          (decodeRolePayload tablesW))) :=
  unresolvable_role_opaque_reference tablesW ⟨[]⟩ ⟨[]⟩
    [⟨10, "mod"⟩, ⟨999, "ghost"⟩] ⟨999, "ghost"⟩ (by decide) (by decide)

theorem hasattr_eq_of_getattr_eq {d d' : AuditLogDiff} {k : String}
    (h : d.getattr? k = d'.getattr? k) : d.hasattr k = d'.hasattr k := by
  unfold AuditLogDiff.hasattr
  rw [h]

theorem aliasOne_spec (src dst : String) (b a b' a' : AuditLogDiff)
    (hsd : src ≠ dst)
    (h : aliasOne src dst b a = .ok (b', a')) :
    (a.hasattr src = true →
       a'.getattr? dst = a.getattr? src ∧ b'.getattr? dst = b.getattr? src
       ∧ a'.getattr? src = a.getattr? src ∧ b'.getattr? src = b.getattr? src)
    ∧ (a.hasattr src = false → b' = b ∧ a' = a) := by
  unfold aliasOne at h
  split at h
  next hs =>
    cases hav : a.getattr? src with
    | none =>
      rw [hav] at h
      exact Except.noConfusion h
    | some av =>
      rw [hav] at h
      cases hbv : b.getattr? src with
      | none =>
        rw [hbv] at h
        exact Except.noConfusion h
      | some bv =>
        rw [hbv] at h
        injection h with h2
        injection h2 with hb ha
        subst hb
        subst ha
        refine ⟨fun _ => ⟨?_, ?_, ?_, ?_⟩, fun hc => by rw [hc] at hs; exact Bool.noConfusion hs⟩
        · rw [getattr_setattr_same]
        · rw [getattr_setattr_same]
        · exact (getattr_setattr_other a dst src av hsd).trans hav
        · exact (getattr_setattr_other b dst src bv hsd).trans hbv
  next hs =>
    rw [Bool.not_eq_true] at hs
    injection h with h2
    injection h2 with hb ha
    subst hb
    subst ha
    exact ⟨fun hc => by rw [hc] at hs; exact Bool.noConfusion hs, fun _ => ⟨rfl, rfl⟩⟩

theorem aliasOne_preserves (src dst : String) (b a b' a' : AuditLogDiff)
    (h : aliasOne src dst b a = .ok (b', a')) (k : String) (hk : k ≠ dst) :
    b'.getattr? k = b.getattr? k ∧ a'.getattr? k = a.getattr? k := by
  unfold aliasOne at h
  split at h
  next hs =>
    cases hav : a.getattr? src with
    | none =>
      rw [hav] at h
      exact Except.noConfusion h
    | some av =>
      rw [hav] at h
      cases hbv : b.getattr? src with
      | none =>
        rw [hbv] at h
        exact Except.noConfusion h
      | some bv =>
        rw [hbv] at h
        injection h with h2
        injection h2 with hb ha
        subst hb
        subst ha
        exact ⟨getattr_setattr_other b dst k bv hk, getattr_setattr_other a dst k av hk⟩
  next hs =>
    injection h with h2
    injection h2 with hb ha
    subst hb
    subst ha
    exact ⟨rfl, rfl⟩

/-- C9: after the per-record pass of a non-app-command-permission-update
decode, a produced `colour` attribute is mirrored verbatim to `color` on
both containers, and a produced `expire_behavior` attribute to
`expire_behaviour`; in particular a raw `color` field yields both
spellings with equal values on before and after. -/
theorem colour_expire_alias_mirroring (t : Tables) (e : EntryCtx)
    (data : List ChangeRecord) (ch : AuditLogChanges)
    (hact : e.action ≠ AuditLogAction.app_command_permission_update)
    (h : changesInit t e data = .ok ch) :
    (ch.after.hasattr "colour" = true →
      ch.after.getattr? "color" = ch.after.getattr? "colour"
      ∧ ch.before.getattr? "color" = ch.before.getattr? "colour")
    ∧ (ch.after.hasattr "expire_behavior" = true →
      ch.after.getattr? "expire_behaviour" = ch.after.getattr? "expire_behavior"
      ∧ ch.before.getattr? "expire_behaviour" = ch.before.getattr? "expire_behavior") := by
  unfold changesInit at h
  rw [if_neg hact] at h
  unfold changesInitNormal at h
  cases hf : List.foldlM (fun ba elem => processRecord t e ba.1 ba.2 elem)
      ((⟨[]⟩ : AuditLogDiff), (⟨[]⟩ : AuditLogDiff)) data with
  | error s =>
    rw [hf] at h
    exact Except.noConfusion h
  | ok ba =>
    rw [hf] at h
    obtain ⟨b, a⟩ := ba
    replace h : aliasPass b a = .ok ch := h
    unfold aliasPass at h
    cases h1 : aliasOne "colour" "color" b a with
    | error s =>
      rw [h1] at h
      exact Except.noConfusion h
    | ok ba1 =>
      rw [h1] at h
      obtain ⟨b1, a1⟩ := ba1
      replace h : (aliasOne "expire_behavior" "expire_behaviour" b1 a1 >>= fun x =>
          Except.ok (⟨x.1, x.2⟩ : AuditLogChanges)) = .ok ch := h
      cases h2 : aliasOne "expire_behavior" "expire_behaviour" b1 a1 with
      | error s =>
        rw [h2] at h
        exact Except.noConfusion h
      | ok ba2 =>
        rw [h2] at h
        obtain ⟨b2, a2⟩ := ba2
        injection h with h3
        have hbe : ch.before = b2 := by rw [← h3]
        have haf : ch.after = a2 := by rw [← h3]
        rw [hbe, haf]
        have S1 := aliasOne_spec "colour" "color" b a b1 a1 (by decide) h1
        have S2 := aliasOne_spec "expire_behavior" "expire_behaviour" b1 a1 b2 a2
          (by decide) h2
        have P2colour := aliasOne_preserves "expire_behavior" "expire_behaviour"
          b1 a1 b2 a2 h2 "colour" (by decide)
        have P2color := aliasOne_preserves "expire_behavior" "expire_behaviour"
          b1 a1 b2 a2 h2 "color" (by decide)
        constructor
        · intro hc
          have hc1 : a1.hasattr "colour" = true := by
            rw [← hasattr_eq_of_getattr_eq P2colour.2]
            exact hc
          cases hac : a.hasattr "colour" with
          | true =>
            obtain ⟨hA, hB, hC, hD⟩ := S1.1 hac
            refine ⟨?_, ?_⟩
            · rw [P2color.2, P2colour.2, hA, hC]
            · rw [P2color.1, P2colour.1, hB, hD]
          | false =>
            obtain ⟨hbb, haa⟩ := S1.2 hac
            subst haa
            rw [hac] at hc1
            exact Bool.noConfusion hc1
        · intro hc
          cases ha1e : a1.hasattr "expire_behavior" with
          | true =>
            obtain ⟨hA, hB, hC, hD⟩ := S2.1 ha1e
            exact ⟨by rw [hA, hC], by rw [hB, hD]⟩
          | false =>
            obtain ⟨hbb, haa⟩ := S2.2 ha1e
            subst haa
            subst hbb
            rw [ha1e] at hc
            exact Bool.noConfusion hc

/-- The raw change list of the alias witness: a raw `color` field and a
raw `expire_behavior` field. -/
def dataAliasW : List ChangeRecord :=
  [⟨"color", some (.vint 1), some (.vint 2)⟩,
   ⟨"expire_behavior", some (.vint 0), some (.vint 1)⟩]

/-- The change-set `dataAliasW` decodes to. -/
def chAliasW : AuditLogChanges :=
  ⟨⟨[("colour", .vcolour 1), ("expire_behavior", .venum .ExpireBehaviour 0),
     ("color", .vcolour 1), ("expire_behaviour", .venum .ExpireBehaviour 0)]⟩,
   ⟨[("colour", .vcolour 2), ("expire_behavior", .venum .ExpireBehaviour 1),
     ("color", .vcolour 2), ("expire_behaviour", .venum .ExpireBehaviour 1)]⟩⟩

theorem colour_expire_alias_mirroring_witness :
    (chAliasW.after.getattr? "color" = chAliasW.after.getattr? "colour"
      ∧ chAliasW.before.getattr? "color" = chAliasW.before.getattr? "colour")
    ∧ (chAliasW.after.getattr? "expire_behaviour" = chAliasW.after.getattr? "expire_behavior"
      ∧ chAliasW.before.getattr? "expire_behaviour" = chAliasW.before.getattr? "expire_behavior") :=
  ⟨(colour_expire_alias_mirroring tablesW ⟨.integration_update, none⟩ dataAliasW chAliasW
      (by decide) rfl).1 rfl,
   (colour_expire_alias_mirroring tablesW ⟨.integration_update, none⟩ dataAliasW chAliasW
      (by decide) rfl).2 rfl⟩

end Audit
